import Mathlib

/-!
Verification of the blog title generator core: a shallow embedding of the
request handler (views.py), the merge rule, the persistence helpers
(models.py), the cache service, the two provider post-processing pipelines
and the text analyzer, with theorems about the documented behaviour.

Python strings are modelled as Lean `String` (a wrapper around `List Char`);
Python string primitives (strip, split, join, slices) are embedded as
character-level functions with Python semantics.
-/

namespace BlogTitle

/-! ## Python string primitives -/

/-- Python `str.strip()`: remove leading and trailing whitespace. -/
def pyStrip (s : String) : String :=
  String.mk (((s.data.dropWhile Char.isWhitespace).reverse.dropWhile Char.isWhitespace).reverse)

/-- Python `str.lower()` (character-wise). -/
def pyLower (s : String) : String :=
  String.mk (s.data.map Char.toLower)

/-- Helper for splitters: prepend a character to the first fragment. -/
def consHead (c : Char) : List (List Char) → List (List Char)
  | [] => [[c]]
  | r :: rs => (c :: r) :: rs

/-- Python `str.split(sep)` for the single-character separator, at the
character level: fragments between occurrences of `sep`, empties kept. -/
def splitChar (sep : Char) : List Char → List (List Char)
  | [] => [[]]
  | c :: rest => if c = sep then [] :: splitChar sep rest else consHead c (splitChar sep rest)

/-- Python `str.split()` with no separator: whitespace-run splitting with no
empty fragments. `acc` holds the current word reversed. -/
def splitWsAux : List Char → List Char → List (List Char)
  | [], acc => if acc = [] then [] else [acc.reverse]
  | c :: rest, acc =>
    if c.isWhitespace then
      if acc = [] then splitWsAux rest [] else acc.reverse :: splitWsAux rest []
    else splitWsAux rest (c :: acc)

def splitWs (l : List Char) : List (List Char) := splitWsAux l []

/-- Python list/str slice endpoint semantics for `s[:k]` with `k` possibly
negative: a negative endpoint counts from the end of the string. -/
def pySliceTo (s : String) (k : Int) : String :=
  if 0 ≤ k then String.mk (s.data.take k.toNat)
  else String.mk (s.data.take (s.data.length - (-k).toNat))

/-- Python `sep.join` at the character level. -/
def joinWith (sep : List Char) : List (List Char) → List Char
  | [] => []
  | [t] => t
  | t :: ts => t ++ sep ++ joinWith sep ts

/-! ## models.py: TitleSuggestionRequest persistence helpers

The `suggested_titles` column is `TextField(null=True)`, modelled as
`Option String`. -/

/-- The character sequence of the `|||` delimiter used by the model. -/
def tripleBar : List Char := ['|', '|', '|']

/-- Python `s.split("|||")`: left-to-right scan, splitting at each
(non-overlapping) occurrence of the three-bar delimiter. -/
def splitTripleBar : List Char → List (List Char)
  | [] => [[]]
  | [c] => [[c]]
  | [c, d] => [[c, d]]
  | c :: d :: e :: rest =>
    if c = '|' ∧ d = '|' ∧ e = '|' then [] :: splitTripleBar rest
    else consHead c (splitTripleBar (d :: e :: rest))

/-- `TitleSuggestionRequest.set_suggested_titles_list`: an empty list stores
NULL, otherwise the titles joined with the `|||` delimiter. -/
def set_suggested_titles_list (titles_list : List String) : Option String :=
  if titles_list = [] then none
  else some (String.mk (joinWith tripleBar (titles_list.map String.data)))

/-- `TitleSuggestionRequest.get_suggested_titles_list`: a NULL or empty field
yields `[]`; otherwise the field is split on `|||` and each piece stripped. -/
def get_suggested_titles_list (suggested_titles : Option String) : List String :=
  match suggested_titles with
  | none => []
  | some s => if s = "" then [] else (splitTripleBar s.data).map (fun l => pyStrip (String.mk l))

/-! ## cache_service.py: TitleSuggestionCache

The Django cache backend is modelled as a function from key strings to
stored entries `(value, timeout)`. The MD5 hex digest of the content is
modelled as the content itself: an injective stand-in that idealizes the
collision resistance of the real digest while keeping the key shape
`title_suggestion:{service_name}:{content_hash}` of `get_cache_key`. -/

/-- Cache timeout in seconds (24 hours). -/
def CACHE_TIMEOUT : Nat := 86400

/-- The modelled cache backend state. -/
def CacheStore : Type := String → Option (List String × Nat)

/-- The empty cache. -/
def emptyStore : CacheStore := fun _ => none

/-- `TitleSuggestionCache.get_cache_key`: rejects missing inputs, otherwise
builds the namespaced, content-addressed key (digest modelled injectively). -/
def get_cache_key (content service_name : String) : Except String String :=
  if content = "" ∨ service_name = "" then
    .error "Content and service_name are required"
  else
    .ok ("title_suggestion:" ++ service_name ++ ":" ++ content)

/-- `TitleSuggestionCache.get_cached_suggestions`: `none` on missing inputs,
key failure, cache miss, or a falsy (empty) stored value. -/
def get_cached_suggestions (store : CacheStore) (content service_name : String) :
    Option (List String) :=
  if content = "" ∨ service_name = "" then none
  else
    match get_cache_key content service_name with
    | .error _ => none
    | .ok key =>
      match store key with
      | none => none
      | some entry => if entry.1 = [] then none else some entry.1

/-- `TitleSuggestionCache.cache_suggestions`: rejects (`false`) an empty
suggestion list or missing inputs; otherwise stores the list under the key
with the 24-hour timeout and returns `true`. The new store is returned
alongside the boolean. -/
def cache_suggestions (store : CacheStore) (content service_name : String)
    (suggestions : List String) : Bool × CacheStore :=
  if suggestions = [] then (false, store)
  else if content = "" ∨ service_name = "" then (false, store)
  else
    match get_cache_key content service_name with
    | .error _ => (false, store)
    | .ok key => (true, fun k => if k = key then some (suggestions, CACHE_TIMEOUT) else store k)

/-! ## text_utils.py: TextAnalyzer

Errors raised by the Python code (ValueError wrapped into
TextAnalysisError) are modelled as `Except String`. The `text` argument is a
Lean `String`, so the isinstance check of the source is always satisfied;
`top_n` and the length arguments are `Int`, as Python integers. -/

/-- The characters of Python `string.punctuation`. -/
def pyPunctuation : List Char :=
  ['!', '"', '#', '$', '%', '&', Char.ofNat 39, '(', ')', '*', '+', ',', '-', '.', '/',
   ':', ';', '<', '=', '>', '?', '@', '[', '\\', ']', '^', '_', Char.ofNat 96,
   Char.ofNat 123, '|', Char.ofNat 125, '~']

/-- The fixed stop-word set of `TextAnalyzer.extract_keywords`. -/
def stop_words : List String :=
  ["a", "an", "the", "and", "or", "but", "if", "because", "as", "what",
   "which", "this", "that", "these", "those", "then", "just", "so", "than",
   "such", "both", "through", "about", "for", "is", "of", "while", "during",
   "to", "in", "at", "by", "on", "with", "from", "be", "been", "being",
   "have", "has", "had", "do", "does", "did", "i", "you", "he", "she",
   "it", "we", "they", "me", "him", "her", "us", "them", "who", "whom",
   "whose", "where", "when", "why", "how"]

/-- Distinct elements of a list in order of first appearance: the iteration
order of a Python `Counter` built from the list. -/
def firstUniq : List String → List String
  | [] => []
  | w :: rest => w :: (firstUniq rest).filter (fun x => x ≠ w)

/-- Stable insertion (by non-increasing count) used to model the stable
descending sort of `Counter.most_common`: the new pair goes after every
already-placed pair with a strictly greater count and before the rest, so
pairs with equal counts keep their original relative order. -/
def insertByCountDesc (x : String × Nat) : List (String × Nat) → List (String × Nat)
  | [] => [x]
  | y :: ys => if y.2 > x.2 then y :: insertByCountDesc x ys else x :: y :: ys

/-- Stable sort by non-increasing count. -/
def sortByCountDesc : List (String × Nat) → List (String × Nat)
  | [] => []
  | x :: xs => insertByCountDesc x (sortByCountDesc xs)

/-- Python `Counter(l).most_common(n)`: (element, count) pairs in first-seen
order, stably sorted by descending count, truncated to `n`. -/
def mostCommon (l : List String) (n : Nat) : List (String × Nat) :=
  (sortByCountDesc ((firstUniq l).map (fun w => (w, l.count w)))).take n

/-- `TextAnalyzer.extract_keywords`: lowercase, replace punctuation by
spaces, tokenize on whitespace, drop stop words and tokens of length at most
2, return the `top_n` most common (word, count) pairs. -/
def extract_keywords (text : String) (top_n : Int) : Except String (List (String × Nat)) :=
  if pyStrip text = "" then .error "Input text cannot be empty"
  else if top_n < 1 then .error "top_n must be a positive integer"
  else
    let lowered := pyLower text
    let depunct := String.mk (lowered.data.map (fun c => if c ∈ pyPunctuation then ' ' else c))
    let words := (splitWs depunct.data).map String.mk
    if words = [] then .ok []
    else
      let filtered := words.filter (fun w => w ∉ stop_words ∧ w.length > 2)
      if filtered = [] then .ok []
      else .ok (mostCommon filtered top_n.toNat)

/-- Python regex `\w` (ASCII view): letters, digits, underscore. -/
def isWordChar (c : Char) : Bool := c.isAlphanum || c = '_'

/-- Does the sentence-splitting pattern of `TextAnalyzer.extract_sentences`
match at the current character `c`? `ctx` is the already-scanned prefix,
reversed, so `ctx.head?` is the character right before `c`. The pattern is a
whitespace character preceded by `.`, `?` or `!`, guarded by the two negative
lookbehinds `(?<!\w\.\w.)` and `(?<![A-Z][a-z]\.)`. -/
def sentBoundary (ctx : List Char) (c : Char) : Bool :=
  c.isWhitespace &&
  (match ctx with
   | p1 :: _ => p1 = '.' || p1 = '?' || p1 = '!'
   | [] => false) &&
  !(match ctx with
    | p1 :: p2 :: p3 :: _ => p3.isUpper && p2.isLower && p1 = '.'
    | _ => false) &&
  !(match ctx with
    | _ :: p2 :: p3 :: p4 :: _ => isWordChar p4 && p3 = '.' && isWordChar p2
    | _ => false)

/-- The scan of `re.split(sentence_pattern, text)`: each matched whitespace
character is consumed and splits the text; lookbehinds read the original
text, so `ctx` accumulates every scanned character. -/
def sentSplitAux (ctx : List Char) : List Char → List (List Char)
  | [] => [[]]
  | c :: rest =>
    if sentBoundary ctx c then [] :: sentSplitAux (c :: ctx) rest
    else consHead c (sentSplitAux (c :: ctx) rest)

def sentSplit (l : List Char) : List (List Char) := sentSplitAux [] l

/-- `TextAnalyzer.extract_sentences`: regex-split the text into sentence
fragments, strip each, drop empties, truncate to `max_sentences`. -/
def extract_sentences (text : String) (max_sentences : Int) :
    Except String (List String) :=
  if pyStrip text = "" then .error "Input text cannot be empty"
  else if max_sentences < 1 then .error "max_sentences must be a positive integer"
  else
    let sentences := ((sentSplit text.data).map (fun l => pyStrip (String.mk l))).filter
      (fun s => s ≠ "")
    .ok (sentences.take max_sentences.toNat)

/-- `TextAnalyzer.get_content_summary`: join the first 3 extracted sentences
with spaces; if the joined summary is longer than `max_length`, keep the
slice `summary[:max_length-3]` (Python slice semantics) and append the
three-dot ellipsis marker. -/
def get_content_summary (text : String) (max_length : Int) : Except String String :=
  if pyStrip text = "" then .error "Input text cannot be empty"
  else if max_length < 1 then .error "max_length must be a positive integer"
  else
    match extract_sentences text 3 with
    | .error e => .error e
    | .ok sentences =>
      if sentences = [] then .ok ""
      else
        let summary := String.intercalate " " sentences
        if (summary.length : Int) > max_length then
          .ok (pySliceTo summary (max_length - 3) ++ "...")
        else .ok summary

/-! ## openai_service.py: response parsing (Provider A)

`OpenAITitleGenerator._process_response` receives the generated text of the
chat completion; only the text matters, so the embedding takes it directly. -/

/-- Python `line.split(".", 1)[1]`: everything after the first dot (the line
is known to contain a dot). -/
def afterFirstDot (l : List Char) : List Char :=
  (l.dropWhile (fun c => c ≠ '.')).drop 1

/-- Python `str.startswith` for the embedding. -/
def pyStartsWith (s p : String) : Bool := p.data.isPrefixOf s.data

/-- One iteration of the title-extraction loop of `_process_response` over an
already-stripped, non-empty line: numbered lines and dash lines yield the
text after the marker, other lines are bare titles unless they begin with
one of the skip words; every candidate is kept only when non-empty and at
most 60 characters long. -/
def processLine (line : String) : Option String :=
  if line.data.contains '.' ∧ (line.data.head?.map Char.isDigit).getD false then
    let title := pyStrip (String.mk (afterFirstDot line.data))
    if title ≠ "" ∧ title.length ≤ 60 then some title else none
  else if pyStartsWith line "-" then
    let title := pyStrip (String.mk (line.data.drop 1))
    if title ≠ "" ∧ title.length ≤ 60 then some title else none
  else if !(pyStartsWith line "title" || pyStartsWith line "suggestion" ||
            pyStartsWith line "here") then
    if line ≠ "" ∧ line.length ≤ 60 then some line else none
  else none

/-- `OpenAITitleGenerator._process_response` on the generated text: empty
text yields `[]`; otherwise each newline-separated line is stripped, empty
lines are skipped, and `processLine` extracts the candidate titles. -/
def _process_response (generated_text : String) : List String :=
  let stripped := pyStrip generated_text
  if stripped = "" then []
  else
    ((splitChar '\n' stripped.data).map String.mk).filterMap (fun l =>
      let line := pyStrip l
      if line = "" then none else processLine line)

/-! ## huggingface_service.py: title cleaning (Provider B)

`HuggingFaceTitleGenerator.generate_titles`, cache-miss path, from the point
where the raw summaries have been extracted: the raw titles are filtered for
truthiness, cleaned, and the result returned (empty list when nothing
remains). -/

/-- `HuggingFaceTitleGenerator._clean_title`: strip, remove one trailing
period, capitalize the first character of a non-empty result. -/
def _clean_title (title : String) : String :=
  let t := pyStrip title
  let t := if t.data.getLast? = some '.' then String.mk t.data.dropLast else t
  if t ≠ "" then
    match t.data with
    | [] => t
    | c :: rest => String.mk (c.toUpper :: rest)
  else t

/-- The cleaning step `[self._clean_title(title) for title in titles if title]`
followed by the empty-result check of `generate_titles`. -/
def hfGenerateResult (raw : List String) : List String :=
  let titles := (raw.filter (fun t => t ≠ "")).map _clean_title
  if titles = [] then [] else titles

/-! ## views.py: TitleSuggestionView.post

The request body value under `content` is modelled as an optional Python
value that is either a string or a non-string with a truthiness bit. The two
provider calls are oracles `Except String (List String)`: `.ok titles` for a
normal return, `.error w` for a raised service failure, where `w` is the
warning string the handler appends to its `errors` list for that exception.
The database is the list of persisted `TitleSuggestionRequest` rows, a
created row receiving the next index as id. -/

inductive PyVal where
  | pstr (s : String)
  | other (truthy : Bool)
deriving DecidableEq

/-- A persisted `TitleSuggestionRequest` row. -/
structure Record where
  content : String
  suggested_titles : Option String
deriving DecidableEq

/-- The content analysis block built when `include_analysis` is requested:
on any analysis failure the block degrades to empty data with an error flag. -/
structure AnalysisData where
  failed : Bool
  keywords : List String
  summary : String
deriving DecidableEq

def computeAnalysis (content : String) : AnalysisData :=
  match extract_keywords content 5, get_content_summary content 200 with
  | .ok kw, .ok s => ⟨false, kw.map Prod.fst, s⟩
  | _, _ => ⟨true, [], ""⟩

/-- The response body: an error object, or the success payload with id,
suggestions, the optional analysis block and the (possibly empty) warnings. -/
inductive RespBody where
  | err (msg : String)
  | ok (id : Nat) (suggestions : List String) (analysis : Option AnalysisData)
      (warnings : List String)
deriving DecidableEq

structure Resp where
  status : Nat
  body : RespBody
deriving DecidableEq

/-- The merge of the two provider results (views.py lines 102-117): first two
of Provider A and first one of Provider B; if short, Provider A index 2, then
the fill slice `hf_titles[1:3-len(combined)]`; finally truncate to 3. -/
def combineTitles (openai_titles hf_titles : List String) : List String :=
  let combined :=
    (if openai_titles ≠ [] then openai_titles.take 2 else []) ++
    (if hf_titles ≠ [] then hf_titles.take 1 else [])
  let combined :=
    if combined.length < 3 then
      let combined :=
        if openai_titles ≠ [] ∧ openai_titles.length > 2 then
          combined ++ ((openai_titles.take 3).drop 2)
        else combined
      if combined.length < 3 ∧ hf_titles ≠ [] ∧ hf_titles.length > 1 then
        combined ++ ((hf_titles.take (3 - combined.length)).drop 1)
      else combined
    else combined
  combined.take 3

/-- The `errors` list the handler accumulates from the two provider calls:
one warning string per raised provider failure, Provider A first. -/
def providerWarnings (pA pB : Except String (List String)) : List String :=
  (match pA with | .error e => [e] | .ok _ => []) ++
  (match pB with | .error e => [e] | .ok _ => [])

/-- `TitleSuggestionView.post`: validation, record creation, optional
analysis, the two provider calls, merge, persistence and response.
`createOk` and `saveOk` model whether the two database writes raise. -/
def post (content? : Option PyVal) (include_analysis : Bool)
    (createOk saveOk : Bool) (pA pB : Except String (List String))
    (db : List Record) : Resp × List Record :=
  match content? with
  | none => (⟨400, .err "Blog post content is required"⟩, db)
  | some (.other truthy) =>
    if !truthy then (⟨400, .err "Blog post content is required"⟩, db)
    else (⟨400, .err "Content must be a string"⟩, db)
  | some (.pstr content) =>
    if content = "" then (⟨400, .err "Blog post content is required"⟩, db)
    else if content.length < 50 then
      (⟨400, .err "Blog post content must be at least 50 characters long"⟩, db)
    else if !createOk then (⟨500, .err "Failed to process request"⟩, db)
    else
      let rid := db.length
      let db₁ := db ++ [⟨content, none⟩]
      let analysis := if include_analysis then some (computeAnalysis content) else none
      let openai_titles := match pA with | .ok ts => ts | .error _ => []
      let hf_titles := match pB with | .ok ts => ts | .error _ => []
      let errors := providerWarnings pA pB
      let combined_titles := combineTitles openai_titles hf_titles
      if combined_titles = [] then
        if errors ≠ [] then
          (⟨500, .err ("Failed to generate titles: " ++ String.intercalate " | " errors)⟩, db₁)
        else (⟨500, .err "No titles could be generated"⟩, db₁)
      else
        let db₂ :=
          if saveOk then
            db₁.set rid ⟨content, set_suggested_titles_list combined_titles⟩
          else db₁
        (⟨200, .ok rid combined_titles analysis errors⟩, db₂)

/-! ## Theorems -/

/-- Auxiliary: the merge always ends by truncating to 3. -/
lemma combineTitles_eq_take (A B : List String) :
    ∃ l : List String, combineTitles A B = l.take 3 :=
  ⟨_, rfl⟩

/-- C1 (code bug): when Provider A returns nothing and Provider B returns
three titles, the fill slice `hf_titles[1:3-len(combined)]` evaluates to
`hf_titles[1:2]`, so the merge stops at two titles instead of filling to
three as intended. -/
theorem merge_fill_slice_eval :
    combineTitles [] ["b1", "b2", "b3"] = ["b1", "b2"] := by decide

/-- C2: the merge is deterministic with quota 3: A = [a1,a2,a3], B = [b1]
merges to [a1,a2,b1]; A = [a1,a2,a3], B = [] merges to [a1,a2,a3]; and the
merged list never has more than 3 titles. -/
theorem merge_deterministic_quota (a1 a2 a3 b1 : String) :
    combineTitles [a1, a2, a3] [b1] = [a1, a2, b1] ∧
    combineTitles [a1, a2, a3] [] = [a1, a2, a3] ∧
    ∀ A B : List String, (combineTitles A B).length ≤ 3 := by
  refine ⟨rfl, rfl, fun A B => ?_⟩
  obtain ⟨l, hl⟩ := combineTitles_eq_take A B
  rw [hl]
  exact List.length_take_le 3 l

/-- C4: a missing, non-string or shorter-than-50-characters content is
rejected with a 400 client error and no record is created. -/
theorem invalid_content_rejected_no_record (ia c s : Bool)
    (pA pB : Except String (List String)) (db : List Record) :
    ((post none ia c s pA pB db).1.status = 400 ∧
      (post none ia c s pA pB db).2 = db) ∧
    (∀ truthy : Bool,
      (post (some (.other truthy)) ia c s pA pB db).1.status = 400 ∧
      (post (some (.other truthy)) ia c s pA pB db).2 = db) ∧
    (∀ content : String, content.length < 50 →
      (post (some (.pstr content)) ia c s pA pB db).1.status = 400 ∧
      (post (some (.pstr content)) ia c s pA pB db).2 = db) := by
  refine ⟨⟨rfl, rfl⟩, fun truthy => ?_, fun content hlen => ?_⟩
  · cases truthy <;> exact ⟨rfl, rfl⟩
  · by_cases h0 : content = "" <;> simp [post, h0, hlen, Nat.not_le.mpr hlen]

/-- C6: Provider A response parsing: a numbered line yields the text after
the number, a dash line yields the text after the dash, and every title the
parser returns is at most 60 characters long. -/
theorem openai_parse_titles :
    _process_response "1. My Great Title" = ["My Great Title"] ∧
    _process_response "- Another idea" = ["Another idea"] ∧
    ∀ generated_text : String, ∀ t ∈ _process_response generated_text,
      t.length ≤ 60 := by
  refine ⟨by decide, by decide, fun generated_text t ht => ?_⟩
  unfold _process_response at ht
  dsimp only at ht
  split at ht
  · simp at ht
  · rw [List.mem_filterMap] at ht
    obtain ⟨l, -, hfl⟩ := ht
    split at hfl
    · exact absurd hfl (by simp)
    · unfold processLine at hfl
      dsimp only at hfl
      split_ifs at hfl with h1 h2 h3 h4 h5 h6 <;>
        first
          | exact Option.noConfusion hfl
          | (rw [Option.some.injEq] at hfl; subst hfl; omega)

/-- C7 counterexample: the raw title "." passes the pre-cleaning truthiness
filter, cleans to the empty string, and is returned, so the returned list
of Provider B can contain an empty string. -/
theorem hf_clean_empty_counterexample :
    hfGenerateResult ["."] = [""] ∧ "" ∈ hfGenerateResult ["."] := by decide

/-- C7 (amended): the truthiness filter runs before cleaning, so titles that
are empty before cleaning are dropped, every returned title is the cleaned
form of some non-empty raw title, and cleaning trims, removes one trailing
period and capitalizes the first character; a title that becomes empty only
through cleaning is kept. -/
theorem hf_clean_filter_before_clean :
    (∀ raw : List String,
      hfGenerateResult raw = (raw.filter (fun t => t ≠ "")).map _clean_title) ∧
    (∀ raw : List String, ∀ t ∈ hfGenerateResult raw,
      ∃ r ∈ raw, r ≠ "" ∧ t = _clean_title r) ∧
    _clean_title " my great title. " = "My great title" := by
  have heq : ∀ raw : List String,
      hfGenerateResult raw = (raw.filter (fun t => t ≠ "")).map _clean_title := by
    intro raw
    unfold hfGenerateResult
    dsimp only
    split
    · next h => exact h.symm
    · rfl
  refine ⟨heq, fun raw t ht => ?_, by decide⟩
  rw [heq] at ht
  obtain ⟨r, hr, hrt⟩ := List.mem_map.mp ht
  rw [List.mem_filter] at hr
  exact ⟨r, hr.1, by simpa using hr.2, hrt.symm⟩

/-- C3: when both providers return an empty list or raise, the handler
responds 500 with the joined warning messages (or the generic no-titles
message when there are none), and the record created before the provider
calls persists with a NULL titles field, i.e. an empty title list. -/
theorem total_failure_server_error (content : String) (ia saveOk : Bool)
    (pA pB : Except String (List String)) (db : List Record)
    (hc : 50 ≤ content.length)
    (hA : pA = .ok [] ∨ ∃ e, pA = .error e)
    (hB : pB = .ok [] ∨ ∃ e, pB = .error e) :
    (post (some (.pstr content)) ia true saveOk pA pB db).1.status = 500 ∧
    (post (some (.pstr content)) ia true saveOk pA pB db).1.body =
      .err (if providerWarnings pA pB = [] then "No titles could be generated"
            else "Failed to generate titles: " ++
              String.intercalate " | " (providerWarnings pA pB)) ∧
    (post (some (.pstr content)) ia true saveOk pA pB db).2 =
      db ++ [Record.mk content none] ∧
    get_suggested_titles_list (Record.mk content none).suggested_titles = [] := by
  have hc0 : ¬ (content = "") := by
    intro h
    rw [h] at hc
    exact absurd hc (by decide)
  have hlt : ¬ (content.length < 50) := Nat.not_lt.mpr hc
  have hcomb : combineTitles ([] : List String) [] = [] := by decide
  obtain hA | ⟨eA, hA⟩ := hA <;> obtain hB | ⟨eB, hB⟩ := hB <;> subst hA <;> subst hB <;>
    simp [post, providerWarnings, get_suggested_titles_list, hc0, hlt, hcomb]

/-- C3 witness: a concrete run with Provider A returning no titles and
Provider B raising. -/
theorem total_failure_server_error_witness :
    (post (some (.pstr "This sample blog post content is long enough to pass validation."))
      false true true (Except.ok []) (Except.error "HuggingFace service unavailable")
      []).1.status = 500 :=
  (total_failure_server_error
    "This sample blog post content is long enough to pass validation."
    false true (Except.ok []) (Except.error "HuggingFace service unavailable") []
    (by decide) (Or.inl rfl) (Or.inr ⟨_, rfl⟩)).1

/-- Auxiliary: cache keys with the same content and different service names
differ. -/
lemma cache_key_ne_service {s₁ s₂ c : String} (h : s₁ ≠ s₂) :
    ("title_suggestion:" ++ s₁ ++ ":" ++ c : String) ≠
      "title_suggestion:" ++ s₂ ++ ":" ++ c := by
  intro he
  apply h
  have hd := congrArg String.data he
  simp only [String.data_append] at hd
  have h1 := (List.append_inj' hd rfl).1
  have h2 := (List.append_inj' h1 rfl).1
  exact String.ext (List.append_cancel_left h2)

/-- Auxiliary: cache keys with the same service name and different contents
differ. -/
lemma cache_key_ne_content {s c₁ c₂ : String} (h : c₁ ≠ c₂) :
    ("title_suggestion:" ++ s ++ ":" ++ c₁ : String) ≠
      "title_suggestion:" ++ s ++ ":" ++ c₂ := by
  intro he
  apply h
  have hd := congrArg String.data he
  simp only [String.data_append] at hd
  exact String.ext (List.append_cancel_left hd)

/-- C5: caching a non-empty title list under non-empty content and service
name succeeds, a lookup with the same content and service returns the same
list, a lookup with a different service name or different content misses,
and the entry is stored with the 24-hour timeout of 86400 seconds. -/
theorem cache_round_trip (content service_name : String) (titles : List String)
    (hc : content ≠ "") (hs : service_name ≠ "") (ht : titles ≠ []) :
    (cache_suggestions emptyStore content service_name titles).1 = true ∧
    get_cached_suggestions (cache_suggestions emptyStore content service_name titles).2
      content service_name = some titles ∧
    (∀ other : String, other ≠ service_name →
      get_cached_suggestions (cache_suggestions emptyStore content service_name titles).2
        content other = none) ∧
    (∀ other : String, other ≠ content →
      get_cached_suggestions (cache_suggestions emptyStore content service_name titles).2
        other service_name = none) ∧
    (cache_suggestions emptyStore content service_name titles).2
      ("title_suggestion:" ++ service_name ++ ":" ++ content) =
        some (titles, 86400) := by
  have hkey : get_cache_key content service_name =
      .ok ("title_suggestion:" ++ service_name ++ ":" ++ content) := by
    simp [get_cache_key, hc, hs]
  refine ⟨?_, ?_, ?_, ?_, ?_⟩
  · simp [cache_suggestions, hkey, hc, hs, ht]
  · simp [cache_suggestions, get_cached_suggestions, hkey, hc, hs, ht]
  · intro other hne
    by_cases h0 : other = ""
    · simp [get_cached_suggestions, h0]
    · have hok : get_cache_key content other =
          .ok ("title_suggestion:" ++ other ++ ":" ++ content) := by
        simp [get_cache_key, hc, h0]
      simp [cache_suggestions, get_cached_suggestions, hkey, hok, hc, hs, ht, h0,
        emptyStore, cache_key_ne_service hne]
  · intro other hne
    by_cases h0 : other = ""
    · simp [get_cached_suggestions, h0]
    · have hok : get_cache_key other service_name =
          .ok ("title_suggestion:" ++ service_name ++ ":" ++ other) := by
        simp [get_cache_key, h0, hs]
      simp [cache_suggestions, get_cached_suggestions, hkey, hok, hc, hs, ht, h0,
        emptyStore, cache_key_ne_content hne]
  · simp [cache_suggestions, hkey, hc, hs, ht, CACHE_TIMEOUT]

/-- C5 witness: the round trip at a concrete content, service and title list. -/
theorem cache_round_trip_witness :
    get_cached_suggestions
      (cache_suggestions emptyStore "some long blog post" "openai" ["Title One"]).2
      "some long blog post" "openai" = some ["Title One"] :=
  (cache_round_trip "some long blog post" "openai" ["Title One"]
    (by decide) (by decide) (by decide)).2.1

/-- Auxiliary: membership after stable insertion. -/
lemma mem_insertByCountDesc {b x : String × Nat} {l : List (String × Nat)} :
    b ∈ insertByCountDesc x l ↔ b = x ∨ b ∈ l := by
  induction l with
  | nil => simp [insertByCountDesc]
  | cons y ys ih =>
    unfold insertByCountDesc
    split_ifs with hy
    · simp only [List.mem_cons, ih]
      tauto
    · simp only [List.mem_cons]

/-- Auxiliary: stable insertion preserves the non-increasing-count order. -/
lemma pairwise_insertByCountDesc {x : String × Nat} {l : List (String × Nat)}
    (h : l.Pairwise (fun a b => b.2 ≤ a.2)) :
    (insertByCountDesc x l).Pairwise (fun a b => b.2 ≤ a.2) := by
  induction l with
  | nil => simp [insertByCountDesc]
  | cons y ys ih =>
    rw [List.pairwise_cons] at h
    unfold insertByCountDesc
    split_ifs with hy
    · rw [List.pairwise_cons]
      refine ⟨fun b hb => ?_, ih h.2⟩
      rcases mem_insertByCountDesc.mp hb with hb | hb
      · subst hb
        omega
      · exact h.1 b hb
    · rw [List.pairwise_cons]
      refine ⟨fun b hb => ?_, List.pairwise_cons.mpr h⟩
      rcases List.mem_cons.mp hb with hb | hb
      · subst hb
        omega
      · have := h.1 b hb
        omega

/-- Auxiliary: the stable sort is ordered by non-increasing count. -/
lemma pairwise_sortByCountDesc (l : List (String × Nat)) :
    (sortByCountDesc l).Pairwise (fun a b => b.2 ≤ a.2) := by
  induction l with
  | nil => exact List.Pairwise.nil
  | cons x xs ih => exact pairwise_insertByCountDesc ih

/-- Auxiliary: the most-common list is sorted by non-increasing count. -/
lemma mostCommon_sorted (l : List String) (n : Nat) :
    List.Chain' (fun a b : String × Nat => b.2 ≤ a.2) (mostCommon l n) := by
  unfold mostCommon
  exact (List.Pairwise.sublist (List.take_sublist n _)
    (pairwise_sortByCountDesc _)).chain'

/-- C8: keyword extraction lowercases, strips punctuation, tokenizes,
removes stop words and short tokens, and ranks by frequency: the spec
example yields [("cat", 2)]; empty text and a non-positive top_n are input
errors; and every successful result is ordered by non-increasing count. -/
theorem extract_keywords_spec :
    extract_keywords "the cat sat on the cat mat" 1 = .ok [("cat", 2)] ∧
    extract_keywords "" 1 = .error "Input text cannot be empty" ∧
    extract_keywords "the cat sat on the cat mat" 0 =
      .error "top_n must be a positive integer" ∧
    ∀ (text : String) (top_n : Int) (r : List (String × Nat)),
      extract_keywords text top_n = .ok r →
      List.Chain' (fun a b => b.2 ≤ a.2) r := by
  refine ⟨by rfl, by rfl, by rfl, fun text top_n r h => ?_⟩
  unfold extract_keywords at h
  dsimp only at h
  split_ifs at h with h1 h2 h3 h4 <;> rw [Except.ok.injEq] at h <;> subst h <;>
    first
      | exact List.chain'_nil
      | exact mostCommon_sorted _ _

/-- C9 counterexample: with max_length = 1 the truncation slice
`summary[:max_length-3]` is a negative Python slice, and the result
(the three-character ellipsis) is longer than max_length. -/
theorem summary_length_counterexample :
    get_content_summary "ab" 1 = .ok "..." ∧
    ¬ ((("..." : String).length : Int) ≤ 1) :=
  ⟨by rfl, by decide⟩

/-- C9 (amended): for every max_length of at least 3, a successful summary
never exceeds max_length characters (for max_length 1 or 2 the negative
slice makes the result exceed the budget). -/
theorem summary_length_bound (text : String) (max_length : Int) (s : String)
    (h3 : 3 ≤ max_length)
    (hok : get_content_summary text max_length = .ok s) :
    (s.length : Int) ≤ max_length := by
  unfold get_content_summary at hok
  split_ifs at hok with h1 h2
  cases hES : extract_sentences text 3 with
  | error e =>
    rw [hES] at hok
    exact Except.noConfusion hok
  | ok sentences =>
    rw [hES] at hok
    dsimp only at hok
    split_ifs at hok with h4 h5
    · rw [Except.ok.injEq] at hok
      subst hok
      simp only [String.length_empty, Nat.cast_zero]
      omega
    · rw [Except.ok.injEq] at hok
      subst hok
      have h0 : (0 : Int) ≤ max_length - 3 := by omega
      rw [String.length_append]
      unfold pySliceTo
      rw [if_pos h0]
      have hl := List.length_take_le (max_length - 3).toNat
        (String.intercalate " " sentences).data
      have he : ("..." : String).length = 3 := rfl
      rw [String.length_mk]
      omega
    · rw [Except.ok.injEq] at hok
      subst hok
      omega

/-- C9 witness: a short text within a budget of 5 characters. -/
theorem summary_length_bound_witness : ((("ab" : String).length : Int)) ≤ 5 :=
  summary_length_bound "ab" 5 "ab" (by decide) (by rfl)

/-- Auxiliary: prepending to the first fragment never yields no fragments. -/
lemma consHead_ne_nil (c : Char) (ls : List (List Char)) : consHead c ls ≠ [] := by
  cases ls <;> simp [consHead]

/-- Auxiliary: the three-bar split always yields at least one fragment. -/
lemma splitTripleBar_ne_nil (l : List Char) : splitTripleBar l ≠ [] := by
  rcases l with - | ⟨c, - | ⟨d, - | ⟨e, rest⟩⟩⟩
  · simp [splitTripleBar]
  · simp [splitTripleBar]
  · simp [splitTripleBar]
  · unfold splitTripleBar
    split_ifs
    · simp
    · exact consHead_ne_nil _ _

/-- Auxiliary: when no delimiter occurrence starts at the head, the split
scans past the first character. -/
lemma splitTripleBar_cons (c : Char) (l : List Char) (hlen : 2 ≤ l.length)
    (h : ¬ (c = '|' ∧ l.take 2 = ['|', '|'])) :
    splitTripleBar (c :: l) = consHead c (splitTripleBar l) := by
  rcases l with - | ⟨d, - | ⟨e, rest⟩⟩
  · simp at hlen
  · simp at hlen
  · rw [splitTripleBar]
    rw [if_neg]
    rintro ⟨hc, hd, he⟩
    exact h ⟨hc, by rw [hd, he]; rfl⟩

/-- Auxiliary: a delimiter occurrence at the head splits off an empty
fragment. -/
lemma splitTripleBar_bars (rest : List Char) :
    splitTripleBar ('|' :: '|' :: '|' :: rest) = [] :: splitTripleBar rest := by
  rw [splitTripleBar]
  rw [if_pos ⟨rfl, rfl, rfl⟩]

/-- Auxiliary: splitting a fragment followed by the delimiter: the fragment
must not contain the delimiter and must not end in a bar (a trailing bar
would complete an earlier delimiter occurrence in the scan). -/
lemma splitTripleBar_append (t rest : List Char)
    (hnt : ¬ tripleBar <:+: t)
    (hlast : t.getLast? ≠ some '|') :
    splitTripleBar (t ++ tripleBar ++ rest) = t :: splitTripleBar rest := by
  induction t with
  | nil => simpa using splitTripleBar_bars rest
  | cons c t' ih =>
    have hnt' : ¬ tripleBar <:+: t' := fun hinf =>
      hnt (hinf.trans (List.suffix_cons c t').isInfix)
    have hlast' : t'.getLast? ≠ some '|' := by
      cases t' with
      | nil => simp
      | cons d t'' =>
        rw [← List.getLast?_cons_cons (a := c)]
        exact hlast
    have hlen : 2 ≤ ((t' ++ tripleBar) ++ rest).length := by
      simp [tripleBar]
      omega
    have hcond : ¬ (c = '|' ∧ ((t' ++ tripleBar) ++ rest).take 2 = ['|', '|']) := by
      rintro ⟨hc, htake⟩
      subst hc
      rcases t' with - | ⟨d, - | ⟨e, t''⟩⟩
      · exact hlast rfl
      · have hd : d = '|' := by
          have : ([d] ++ tripleBar ++ rest).take 2 = [d, '|'] := rfl
          rw [this] at htake
          exact (List.cons.injEq _ _ _ _).mp htake |>.1
        subst hd
        exact hlast (by decide)
      · have : ((d :: e :: t'' ++ tripleBar) ++ rest).take 2 = [d, e] := rfl
        rw [this] at htake
        obtain ⟨hd, he⟩ : d = '|' ∧ e = '|' := by
          have h1 := (List.cons.injEq _ _ _ _).mp htake
          have h2 := (List.cons.injEq _ _ _ _).mp h1.2
          exact ⟨h1.1, h2.1⟩
        subst hd
        subst he
        exact hnt ⟨[], t'', rfl⟩
    calc splitTripleBar ((c :: t') ++ tripleBar ++ rest)
        = splitTripleBar (c :: ((t' ++ tripleBar) ++ rest)) := rfl
      _ = consHead c (splitTripleBar ((t' ++ tripleBar) ++ rest)) :=
          splitTripleBar_cons c _ hlen hcond
      _ = consHead c (t' :: splitTripleBar rest) := by
          rw [List.append_assoc] at ih ⊢
          rw [ih hnt' hlast']
      _ = (c :: t') :: splitTripleBar rest := rfl

/-- Auxiliary: a fragment with no delimiter occurrence splits to itself. -/
lemma splitTripleBar_no_triple (t : List Char) (h : ¬ tripleBar <:+: t) :
    splitTripleBar t = [t] := by
  induction t with
  | nil => rfl
  | cons c t' ih =>
    have ih' := ih (fun hinf => h (hinf.trans (List.suffix_cons c t').isInfix))
    rcases t' with - | ⟨d, - | ⟨e, rest⟩⟩
    · rfl
    · rfl
    · have hcond : ¬ (c = '|' ∧ (d :: e :: rest).take 2 = ['|', '|']) := by
        rintro ⟨hc, htake⟩
        subst hc
        obtain ⟨hd, he⟩ : d = '|' ∧ e = '|' := by
          have h1 := (List.cons.injEq _ _ _ _).mp htake
          have h2 := (List.cons.injEq _ _ _ _).mp h1.2
          exact ⟨h1.1, h2.1⟩
        subst hd
        subst he
        exact h ⟨[], rest, rfl⟩
      rw [splitTripleBar_cons c _ (by simp) hcond, ih']
      rfl

/-- Auxiliary: splitting the three-bar join of the data of a list of titles
recovers the list, provided no title contains the delimiter and no non-final
title ends in a bar. -/
lemma splitTripleBar_join (titles : List String)
    (hnt : ∀ t ∈ titles, ¬ tripleBar <:+: t.data)
    (hbar : ∀ t ∈ titles.dropLast, t.data.getLast? ≠ some '|')
    (hne : titles ≠ []) :
    splitTripleBar (joinWith tripleBar (titles.map String.data)) =
      titles.map String.data := by
  induction titles with
  | nil => exact absurd rfl hne
  | cons t rest ih =>
    cases rest with
    | nil => exact splitTripleBar_no_triple _ (hnt t (by simp))
    | cons u rest' =>
      have hjoin : joinWith tripleBar ((t :: u :: rest').map String.data) =
          t.data ++ tripleBar ++ joinWith tripleBar ((u :: rest').map String.data) := rfl
      rw [hjoin]
      rw [splitTripleBar_append _ _ (hnt t (by simp)) (hbar t (by simp))]
      rw [ih (fun x hx => hnt x (List.mem_cons_of_mem t hx))
        (fun x hx => hbar x (by rw [List.dropLast_cons₂]; exact List.mem_cons_of_mem t hx))
        (by simp)]
      rfl

/-- C10 counterexample: the titles ["a|", "b"] contain no occurrence of the
delimiter and carry no edge whitespace, yet the trailing bar of the first
title completes an earlier delimiter occurrence in the stored string, and
the round trip returns ["a", "|b"]. -/
theorem titles_roundtrip_counterexample :
    get_suggested_titles_list (set_suggested_titles_list ["a|", "b"]) = ["a", "|b"] ∧
    ¬ (get_suggested_titles_list (set_suggested_titles_list ["a|", "b"]) =
        ["a|", "b"]) := by decide

/-- C10 (amended): for a non-empty list of titles other than the single
empty title, in which no title contains the delimiter, no non-final title
ends in a bar, and no title has leading or trailing whitespace, storing then
reading returns the original list; the empty list stores NULL and reads
back as the empty list. -/
theorem titles_roundtrip (titles : List String)
    (h0 : titles ≠ []) (h1 : titles ≠ [""])
    (hnt : ∀ t ∈ titles, ¬ tripleBar <:+: t.data)
    (hbar : ∀ t ∈ titles.dropLast, t.data.getLast? ≠ some '|')
    (hws : ∀ t ∈ titles, pyStrip t = t) :
    get_suggested_titles_list (set_suggested_titles_list titles) = titles ∧
    set_suggested_titles_list [] = none ∧
    get_suggested_titles_list none = [] := by
  refine ⟨?_, rfl, rfl⟩
  have hjoin_ne : joinWith tripleBar (titles.map String.data) ≠ [] := by
    rcases titles with - | ⟨t, - | ⟨u, rest⟩⟩
    · exact absurd rfl h0
    · have ht : t ≠ "" := fun h => h1 (by rw [h])
      have hj : joinWith tripleBar (List.map String.data [t]) = t.data := rfl
      rw [hj]
      intro hd
      exact ht (String.ext hd)
    · have hj : joinWith tripleBar (List.map String.data (t :: u :: rest)) =
          t.data ++ tripleBar ++ joinWith tripleBar (List.map String.data (u :: rest)) := rfl
      rw [hj]
      intro hd
      have := congrArg List.length hd
      simp [tripleBar] at this
  unfold set_suggested_titles_list
  rw [if_neg h0]
  unfold get_suggested_titles_list
  dsimp only
  rw [if_neg (fun heq => hjoin_ne (congrArg String.data heq))]
  rw [splitTripleBar_join titles hnt hbar h0]
  rw [List.map_map]
  have hmap : ∀ t ∈ titles, ((fun l => pyStrip (String.mk l)) ∘ String.data) t = id t :=
    fun t ht => hws t ht
  rw [List.map_congr_left hmap, List.map_id]

/-- C10 witness: the round trip at a concrete two-title list. -/
theorem titles_roundtrip_witness :
    get_suggested_titles_list (set_suggested_titles_list ["First Title", "Second"]) =
      ["First Title", "Second"] :=
  (titles_roundtrip ["First Title", "Second"] (by decide) (by decide) (by decide)
    (by decide) (by decide)).1

end BlogTitle
